import Mathlib

/-!
Shallow embedding of the command-arbitration and plugin-event core of the
DG-LAB_linkALL repository (files `src/dglab_controller.py`,
`src/plugin_system/event.py`, `src/plugin_system/plugin.py`,
`src/plugin_system/plugin_manager.py`), together with theorems settling the
spec claims about it.

Machine reals (Python `time.time()` floats and the cooldown table) are
embedded as rationals; Python `int` values as `Int`; Python `dict`s as
insertion-ordered association lists, matching Python's dict iteration
order.
-/

namespace DGLab

/-- Modelled from the spec: the `CommandType` enum lives in
`src/command_types.py`, which is not part of the provided sources (only its
callers are).  The spec's data model lists the classes
GUI, PANEL, INTERACTION, EXTERNAL(TON) with "ascending numeric rank, lower =
served first", and its scenario makes GUI rank lower than PANEL; the member
names below are the ones the provided sources use
(`CommandType.GUI_COMMAND`, ...). -/
inductive CommandType where
  | gui
  | panel
  | interaction
  | ton
deriving DecidableEq, Repr

/-- Modelled from the spec: numeric rank (`.value` in Python) of each
command class, ascending in the order GUI, PANEL, INTERACTION, TON. -/
def CommandType.value : CommandType → Nat
  | .gui => 0
  | .panel => 1
  | .interaction => 2
  | .ton => 3

/-- The Python enum member name (`.name`), as used by the provided sources
to build cooldown-ledger keys in `add_command`. -/
def CommandType.pyName : CommandType → String
  | .gui => "GUI_COMMAND"
  | .panel => "PANEL_COMMAND"
  | .interaction => "INTERACTION_COMMAND"
  | .ton => "TON_COMMAND"

/-- `Channel` from the external `pydglab_ws` library: the two device
channels `Channel.A` and `Channel.B`. -/
inductive Channel where
  | A
  | B
deriving DecidableEq, Repr

/-- The strength-operation tags used by `execute_command`
(`StrengthOperationType.SET_TO / INCREASE / DECREASE / SET_PULSE_MODE`). -/
inductive StrengthOperationType where
  | setTo
  | increase
  | decrease
  | setPulseMode
deriving DecidableEq, Repr

/-- `ChannelCommand` (`dglab_controller.py` lines 21-28): a queued device
command.  `sourceId` holds the already-resolved `self.source_id` (the
constructor's `source_id or str(uuid.uuid4())`); `timestamp` the resolved
`timestamp or time.time()`. -/
structure ChannelCommand where
  commandType : CommandType
  channel : Channel
  operation : StrengthOperationType
  value : Int
  sourceId : String
  timestamp : Rat
deriving DecidableEq, Repr

/-- `ChannelCommand.__lt__` (`dglab_controller.py` lines 30-34): compare by
class rank first, then by timestamp. -/
def cmdLt (c d : ChannelCommand) : Bool :=
  if c.commandType.value ≠ d.commandType.value then
    decide (c.commandType.value < d.commandType.value)
  else
    decide (c.timestamp < d.timestamp)

/-- The non-strict lexicographic order (class rank, then timestamp) that the
spec's ordering clause describes. -/
def lexLe (c d : ChannelCommand) : Prop :=
  c.commandType.value < d.commandType.value ∨
    (c.commandType.value = d.commandType.value ∧ c.timestamp ≤ d.timestamp)

instance (c d : ChannelCommand) : Decidable (lexLe c d) := by
  unfold lexLe; infer_instance

/-- Model of `asyncio.PriorityQueue.get` on the queue's current contents: a
`PriorityQueue` is a binary min-heap ordered by the entries' `__lt__`, and
`get` removes and returns a smallest entry.  `takeMin` returns such a
minimal entry (under `cmdLt`) together with the remaining entries, or
`none` on an empty queue. -/
def takeMin : List ChannelCommand → Option (ChannelCommand × List ChannelCommand)
  | [] => none
  | c :: cs =>
    match takeMin cs with
    | none => some (c, [])
    | some (m, rest) => if cmdLt m c then some (m, c :: rest) else some (c, cs)

theorem lexLe_refl (c : ChannelCommand) : lexLe c c :=
  Or.inr ⟨rfl, le_refl _⟩

theorem lexLe_of_cmdLt {c d : ChannelCommand} (h : cmdLt c d = true) : lexLe c d := by
  unfold cmdLt at h
  by_cases hv : c.commandType.value = d.commandType.value
  · simp only [hv, ne_eq, not_true_eq_false, if_false, decide_eq_true_eq] at h
    exact Or.inr ⟨hv, le_of_lt h⟩
  · simp only [hv, ne_eq, not_false_eq_true, if_true, decide_eq_true_eq] at h
    exact Or.inl h

theorem lexLe_of_not_cmdLt {c d : ChannelCommand} (h : cmdLt c d = false) : lexLe d c := by
  unfold cmdLt at h
  by_cases hv : c.commandType.value = d.commandType.value
  · simp only [hv, ne_eq, not_true_eq_false, if_false, decide_eq_false_iff_not] at h
    exact Or.inr ⟨hv.symm, le_of_not_lt h⟩
  · simp only [hv, ne_eq, not_false_eq_true, if_true, decide_eq_false_iff_not] at h
    exact Or.inl (by omega)

theorem lexLe_total (c d : ChannelCommand) : lexLe c d ∨ lexLe d c := by
  unfold lexLe
  rcases Nat.lt_trichotomy c.commandType.value d.commandType.value with h | h | h
  · exact Or.inl (Or.inl h)
  · rcases le_total c.timestamp d.timestamp with ht | ht
    · exact Or.inl (Or.inr ⟨h, ht⟩)
    · exact Or.inr (Or.inr ⟨h.symm, ht⟩)
  · exact Or.inr (Or.inl h)

theorem lexLe_trans {a b c : ChannelCommand} (h1 : lexLe a b) (h2 : lexLe b c) :
    lexLe a c := by
  unfold lexLe at *
  rcases h1 with h1 | ⟨e1, t1⟩
  · rcases h2 with h2 | ⟨e2, _⟩
    · exact Or.inl (h1.trans h2)
    · exact Or.inl (e2 ▸ h1)
  · rcases h2 with h2 | ⟨e2, t2⟩
    · exact Or.inl (e1 ▸ h2)
    · exact Or.inr ⟨e1.trans e2, t1.trans t2⟩

theorem takeMin_eq_none {q : List ChannelCommand} (h : takeMin q = none) : q = [] := by
  cases q with
  | nil => rfl
  | cons c cs =>
    unfold takeMin at h
    cases hcs : takeMin cs with
    | none => rw [hcs] at h; exact absurd h (by simp)
    | some p => rw [hcs] at h; by_cases hlt : cmdLt p.1 c = true <;> simp [hlt] at h

theorem takeMin_perm :
    ∀ (q : List ChannelCommand) (m : ChannelCommand) (rest : List ChannelCommand),
      takeMin q = some (m, rest) → (m :: rest).Perm q := by
  intro q
  induction q with
  | nil => intro m rest h; simp [takeMin] at h
  | cons c cs ih =>
    intro m rest h
    unfold takeMin at h
    cases hcs : takeMin cs with
    | none =>
      rw [hcs] at h
      simp only [Option.some.injEq, Prod.mk.injEq] at h
      rw [← h.1, ← h.2, takeMin_eq_none hcs]
    | some p =>
      obtain ⟨m', rest'⟩ := p
      rw [hcs] at h
      by_cases hlt : cmdLt m' c = true
      · simp only [hlt, if_true, Option.some.injEq, Prod.mk.injEq] at h
        rw [← h.1, ← h.2]
        exact (List.Perm.swap c m' rest').trans (List.Perm.cons c (ih m' rest' hcs))
      · simp only [hlt, if_false, Bool.false_eq_true, Option.some.injEq, Prod.mk.injEq] at h
        rw [← h.1, ← h.2]

theorem takeMin_min :
    ∀ (q : List ChannelCommand) (m : ChannelCommand) (rest : List ChannelCommand),
      takeMin q = some (m, rest) → ∀ x ∈ q, lexLe m x := by
  intro q
  induction q with
  | nil => intro m rest h; simp [takeMin] at h
  | cons c cs ih =>
    intro m rest h x hx
    unfold takeMin at h
    cases hcs : takeMin cs with
    | none =>
      rw [hcs] at h
      simp only [Option.some.injEq, Prod.mk.injEq] at h
      rw [takeMin_eq_none hcs] at hx
      simp only [List.mem_singleton] at hx
      rw [← h.1, hx]
      exact lexLe_refl c
    | some p =>
      obtain ⟨m', rest'⟩ := p
      rw [hcs] at h
      by_cases hlt : cmdLt m' c = true
      · simp only [hlt, if_true, Option.some.injEq, Prod.mk.injEq] at h
        rw [← h.1]
        rcases List.mem_cons.mp hx with hx | hx
        · rw [hx]; exact lexLe_of_cmdLt hlt
        · exact ih m' rest' hcs x hx
      · simp only [hlt, if_false, Bool.false_eq_true, Option.some.injEq, Prod.mk.injEq] at h
        rw [← h.1]
        rcases List.mem_cons.mp hx with hx | hx
        · rw [hx]; exact lexLe_refl c
        · exact lexLe_trans (lexLe_of_not_cmdLt (by simpa using hlt)) (ih m' rest' hcs x hx)

/-! ### Python dict model

Insertion-ordered association lists with unique keys, mirroring Python
dicts: `dictGet` is `d.get(k)`, `dictSet` is `d[k] = v` (update in place if
the key exists, else append), `dictDelete` is `del d[k]`. -/

/-- `d.get(k)` / `k in d`. -/
def dictGet {κ α : Type} [DecidableEq κ] (d : List (κ × α)) (k : κ) : Option α :=
  (d.find? (fun p => p.1 = k)).map (·.2)

/-- `d[k] = v`: overwrite in place, else append (Python dicts keep the
original insertion position on overwrite). -/
def dictSet {κ α : Type} [DecidableEq κ] : List (κ × α) → κ → α → List (κ × α)
  | [], k, v => [(k, v)]
  | (k', v') :: d, k, v =>
    if k' = k then (k, v) :: d else (k', v') :: dictSet d k v

/-- `del d[k]`. -/
def dictDelete {κ α : Type} [DecidableEq κ] (d : List (κ × α)) (k : κ) : List (κ × α) :=
  d.filter (fun p => p.1 ≠ k)

/-! ### Controller state and the cooldown gate -/

/-- `StrengthData` from `pydglab_ws`: the last strength report from the
app, with current values and limits for both channels
(`self.last_strength` in the controller). -/
structure StrengthData where
  a : Int
  b : Int
  aLimit : Int
  bLimit : Int
deriving DecidableEq, Repr

/-- `self.source_cooldowns` (`dglab_controller.py` lines 69-74): cooldown
seconds per command class. -/
def sourceCooldowns : CommandType → Rat
  | .gui => 0
  | .panel => mkRat 1 10
  | .interaction => mkRat 1 20
  | .ton => mkRat 1 5

/-- The mutable fields of `DGLabController` that the command queue, the
cooldown gate and the dispatcher read or write.  `commandSources` is
`self.command_sources` (the cooldown ledger, one shared dict);
`commandQueue` holds the current contents of `self.command_queue`. -/
structure ControllerState where
  commandSources : List (String × Rat)
  commandQueue : List ChannelCommand
  enableGuiCommands : Bool
  enablePanelCommands : Bool
  enableInteractionCommands : Bool
  enableInteractionModeA : Bool
  enableInteractionModeB : Bool
  lastStrength : Option StrengthData
  pulseModeA : Int
  pulseModeB : Int
deriving DecidableEq, Repr

/-- The `__init__` defaults of the fields above (`dglab_controller.py`
lines 45-82). -/
def initialControllerState : ControllerState where
  commandSources := []
  commandQueue := []
  enableGuiCommands := true
  enablePanelCommands := true
  enableInteractionCommands := true
  enableInteractionModeA := false
  enableInteractionModeB := false
  lastStrength := none
  pulseModeA := 0
  pulseModeB := 0

/-- The ledger key built by `add_command`
(`f"{command_type.name}_{source_id or 'default'}"`). -/
def submitKey (ct : CommandType) (sourceId : Option String) : String :=
  ct.pyName ++ "_" ++ sourceId.getD "default"

/-- `DGLabController.add_command` (`dglab_controller.py` lines 315-333):
submission-side cooldown gate plus enqueue.  `sourceId = none` models
`source_id=None`; `freshId` is the `str(uuid.uuid4())` the
`ChannelCommand` constructor would generate when `source_id` is falsy. -/
def addCommand (s : ControllerState) (ct : CommandType) (ch : Channel)
    (op : StrengthOperationType) (v : Int) (sourceId : Option String)
    (freshId : String) (now : Rat) : ControllerState :=
  let key := submitKey ct sourceId
  let accept : ControllerState :=
    { s with
      commandSources := dictSet s.commandSources key now
      commandQueue := s.commandQueue ++
        [⟨ct, ch, op, v, sourceId.getD freshId, now⟩] }
  match dictGet s.commandSources key with
  | some lastTime => if now - lastTime < sourceCooldowns ct then s else accept
  | none => accept

/-! ### The dispatcher (one iteration of `process_commands`) -/

/-- A call made against the device transport (`self.client`). -/
inductive ClientCall where
  | setStrength (ch : Channel) (op : StrengthOperationType) (v : Int)
  | setPulse (ch : Channel) (pulse : List Int)
deriving DecidableEq, Repr

/-- `DGLabController.adjust_strength` (`dglab_controller.py` lines
168-178): clamp `current + delta` into `[0, limit]` for the channel and
send it with `SET_TO`; no transport call when no strength report has been
received yet. -/
def adjustStrength (s : ControllerState) (ch : Channel) (delta : Int) :
    List ClientCall :=
  match s.lastStrength with
  | none => []
  | some ls =>
    match ch with
    | .A => [.setStrength .A .setTo (max 0 (min ls.aLimit (ls.a + delta)))]
    | .B => [.setStrength .B .setTo (max 0 (min ls.bLimit (ls.b + delta)))]

/-- `DGLabController.set_pulse_mode` (`dglab_controller.py` lines
180-199): record the new mode for the channel (the UI refresh is outside
the model). -/
def setPulseMode (s : ControllerState) (ch : Channel) (mode : Int) :
    ControllerState :=
  match ch with
  | .A => { s with pulseModeA := mode }
  | .B => { s with pulseModeB := mode }

/-- `DGLabController.execute_command` (`dglab_controller.py` lines
141-155): translate a queued command into state changes and transport
calls. -/
def executeCommand (s : ControllerState) (cmd : ChannelCommand) :
    ControllerState × List ClientCall :=
  match cmd.operation with
  | .setTo => (s, [.setStrength cmd.channel .setTo cmd.value])
  | .increase => (s, adjustStrength s cmd.channel cmd.value)
  | .decrease => (s, adjustStrength s cmd.channel (-cmd.value))
  | .setPulseMode => (setPulseMode s cmd.channel cmd.value, [])

/-- One iteration of the `process_commands` dispatcher loop
(`dglab_controller.py` lines 103-135) after the command has been taken
from the queue: the dispatch-time cooldown re-check (note: keyed by
`command.source_id`, with default `0`), the ledger refresh, and the
class-toggle / per-channel interaction-mode gate before
`execute_command`. -/
def processOneCommand (s : ControllerState) (cmd : ChannelCommand)
    (currentTime : Rat) : ControllerState × List ClientCall :=
  let lastCommandTime := (dictGet s.commandSources cmd.sourceId).getD 0
  let cooldown := sourceCooldowns cmd.commandType
  if currentTime - lastCommandTime < cooldown then
    (s, [])
  else
    let s := { s with
      commandSources := dictSet s.commandSources cmd.sourceId currentTime }
    if cmd.commandType = .gui ∧ s.enableGuiCommands then
      executeCommand s cmd
    else if cmd.commandType = .panel ∧ s.enablePanelCommands then
      executeCommand s cmd
    else if cmd.commandType = .interaction ∧ s.enableInteractionCommands then
      if (cmd.channel = .A ∧ s.enableInteractionModeA) ∨
         (cmd.channel = .B ∧ s.enableInteractionModeB) then
        executeCommand s cmd
      else
        (s, [])
    else if cmd.commandType = .ton then
      executeCommand s cmd
    else
      (s, [])

/-! ### Event bus (`src/plugin_system/event.py`)

Handler callables are abstracted by a `Callable` record: a Python identity
(`id(handler)`, used in the plugin-event bookkeeping keys) plus the one
behavioural fact `emit` observes, namely whether invoking the handler
leaves the event's cancelled flag set (`event.cancel()`).  A handler that
raises is caught inside `emit` and does not affect the dispatch flow, so
it is a `cancels := false` callable. -/

/-- Decimal digits of a natural number (fuel-recursive so that it reduces
inside the kernel); used to embed Python's string formatting of
`id(handler)` in f-string keys. -/
def natToCharsAux : Nat → Nat → List Char
  | 0, _ => []
  | fuel + 1, n =>
    if n < 10 then [Nat.digitChar n]
    else natToCharsAux fuel (n / 10) ++ [Nat.digitChar (n % 10)]

/-- Python `str(n)` for a natural number. -/
def natToString (n : Nat) : String :=
  ⟨natToCharsAux (n + 1) n⟩

/-- Python `str.split(sep)` for a one-character separator on the
character list: split at every occurrence of `sep`, keeping empty
pieces. -/
def pySplitChars (sep : Char) : List Char → List (List Char)
  | [] => [[]]
  | c :: rest =>
    let r := pySplitChars sep rest
    if c = sep then [] :: r
    else
      match r with
      | [] => [[c]]
      | piece :: pieces => (c :: piece) :: pieces

/-- Python `s.split(sep)` for a one-character separator (always returns a
non-empty list, so indexing `[0]` below is total). -/
def pySplit (s : String) (sep : Char) : List String :=
  (pySplitChars sep s.data).map (fun cs => ⟨cs⟩)

/-- `EventPriority` (`event.py` lines 12-19). -/
inductive EventPriority where
  | lowest
  | low
  | normal
  | high
  | highest
  | monitor
deriving DecidableEq, Repr

/-- The enum numeric values (`event.py` lines 14-19). -/
def EventPriority.value : EventPriority → Nat
  | .lowest => 0
  | .low => 1
  | .normal => 2
  | .high => 3
  | .highest => 4
  | .monitor => 5

/-- Abstraction of a Python callable registered as a handler. -/
structure Callable where
  id : Nat
  cancels : Bool
deriving DecidableEq, Repr

/-- `EventHandler` (`event.py` lines 21-32): a registration record. -/
structure EventHandler where
  handler : Callable
  priority : EventPriority
  plugin : Option Nat
deriving DecidableEq, Repr

/-- Insert keeping earlier-inserted elements of the same priority value in
front (`≤` comparison), the helper for the stable sort below. -/
def ehInsert (h : EventHandler) : List EventHandler → List EventHandler
  | [] => [h]
  | x :: xs =>
    if h.priority.value ≤ x.priority.value then h :: x :: xs
    else x :: ehInsert h xs

/-- Model of Python's `list.sort()` on a handler list: `list.sort` is a
stable ascending sort under `EventHandler.__lt__` (`event.py` lines
28-32, comparing `priority.value`), and any stable ascending sort computes
the same list, here an insertion sort. -/
def pySortHandlers : List EventHandler → List EventHandler
  | [] => []
  | x :: xs => ehInsert x (pySortHandlers xs)

/-- The state of `EventManager` (`event.py` lines 64-69):
`_event_handlers` maps an event name to its (sorted) handler list;
`_plugin_events` maps `id(plugin)` to a dict from
`f"{event_name}_{id(handler)}"` to the registration record. -/
structure EventManager where
  eventHandlers : List (String × List EventHandler)
  pluginEvents : List (Nat × List (String × EventHandler))
deriving DecidableEq, Repr

def emptyEventManager : EventManager where
  eventHandlers := []
  pluginEvents := []

/-- `EventManager.register_event_handler` (`event.py` lines 71-100):
append the new record to the event's list, re-sort the list, and when an
owning plugin is given also record the registration under
`f"{event_name}_{id(handler)}"` in `_plugin_events[id(plugin)]`. -/
def registerEventHandler (em : EventManager) (eventName : String)
    (handler : Callable) (priority : EventPriority) (plugin : Option Nat) :
    EventManager :=
  let existing := (dictGet em.eventHandlers eventName).getD []
  let handlerObj : EventHandler := ⟨handler, priority, plugin⟩
  let sorted := pySortHandlers (existing ++ [handlerObj])
  let em' : EventManager :=
    { em with eventHandlers := dictSet em.eventHandlers eventName sorted }
  match plugin with
  | none => em'
  | some pluginId =>
    let entries := (dictGet em'.pluginEvents pluginId).getD []
    let key := eventName ++ "_" ++ natToString handler.id
    { em' with
      pluginEvents :=
        dictSet em'.pluginEvents pluginId (dictSet entries key handlerObj) }

/-- `EventManager.unregister_event_handler` (`event.py` lines 102-119):
drop every registration of the callable under the event name; delete the
entry when the list becomes empty. -/
def unregisterEventHandler (em : EventManager) (eventName : String)
    (handler : Callable) : EventManager :=
  match dictGet em.eventHandlers eventName with
  | none => em
  | some hs =>
    let hs' := hs.filter (fun h => h.handler ≠ handler)
    if hs' = [] then
      { em with eventHandlers := dictDelete em.eventHandlers eventName }
    else
      { em with eventHandlers := dictSet em.eventHandlers eventName hs' }

/-- `EventManager.unregister_plugin_events` (`event.py` lines 121-143):
for each bookkeeping key of the plugin, recover the event name as
`event_key.split('_')[0]` and remove the recorded callable from that
event's handler list; finally drop the plugin's bookkeeping dict. -/
def unregisterPluginEvents (em : EventManager) (pluginId : Nat) :
    EventManager :=
  match dictGet em.pluginEvents pluginId with
  | none => em
  | some entries =>
    let handlers := entries.foldl
      (fun acc entry =>
        let eventName := (pySplit entry.1 '_').headD ""
        match dictGet acc eventName with
        | none => acc
        | some hs =>
          let hs' := hs.filter (fun h => h.handler ≠ entry.2.handler)
          if hs' = [] then dictDelete acc eventName
          else dictSet acc eventName hs')
      em.eventHandlers
    { eventHandlers := handlers
      pluginEvents := dictDelete em.pluginEvents pluginId }

/-- One dispatch loop of `emit` (`event.py` lines 160-175 and 178-192):
walk the handler list in order; before each handler, stop if the event is
cancelled; invoking a handler may set the cancelled flag.  Returns the
invoked handlers in call order and the final cancelled flag. -/
def runHandlers : List EventHandler → Bool → List EventHandler × Bool
  | [], cancelled => ([], cancelled)
  | h :: hs, cancelled =>
    if cancelled then ([], cancelled)
    else
      let afterCall := runHandlers hs h.handler.cancels
      (h :: afterCall.1, afterCall.2)

/-- The observable outcome of one `emit` call: the handlers invoked in the
exact-name phase, those invoked in the wildcard (`"*"`) phase, and the
event's final cancelled flag. -/
structure EmitResult where
  named : List EventHandler
  wildcard : List EventHandler
  cancelled : Bool
deriving DecidableEq, Repr

/-- `EventManager.emit` (`event.py` lines 145-194): a fresh un-cancelled
event; first the handlers registered for the exact name, then the
handlers registered for `"*"`, both loops stopping once the event is
cancelled. -/
def emit (em : EventManager) (eventName : String) : EmitResult :=
  let namedRun := runHandlers ((dictGet em.eventHandlers eventName).getD []) false
  let wildRun := runHandlers ((dictGet em.eventHandlers "*").getD []) namedRun.2
  ⟨namedRun.1, wildRun.1, wildRun.2⟩

/-! ### Plugin lifecycle (`src/plugin_system/plugin.py`) -/

/-- Outcome of one call of a plugin's `initialize()` implementation. -/
inductive InitOutcome where
  | success
  | failure
  | raises
deriving DecidableEq, Repr

/-- Outcome of one call of a plugin's `shutdown()` implementation. -/
inductive ShutdownOutcome where
  | success
  | raises
deriving DecidableEq, Repr

/-- The lifecycle-relevant state of a `Plugin` instance: its `enabled`
flag (`plugin.py` line 35). -/
structure Plugin where
  enabled : Bool
deriving DecidableEq, Repr

/-- What one `Plugin.enable` call did. -/
structure EnableResult where
  plugin : Plugin
  returned : Bool
  initializeCalled : Bool
  notifiedEnabled : Bool
deriving DecidableEq, Repr

/-- `Plugin.enable` (`plugin.py` lines 101-117), with the behaviour of
this call's `initialize()` given as `init`: when not yet enabled, call
`initialize()`; on `True` set `enabled`, publish `plugin_enabled` and
return `True`; on `False` return `False`; an exception is caught and
logged and `False` is returned.  When already enabled, return `False`
without calling `initialize()`. -/
def Plugin.enable (p : Plugin) (init : InitOutcome) : EnableResult :=
  if p.enabled then ⟨p, false, false, false⟩
  else
    match init with
    | .success => ⟨⟨true⟩, true, true, true⟩
    | .failure => ⟨p, false, true, false⟩
    | .raises => ⟨p, false, true, false⟩

/-- What one `Plugin.disable` call did. -/
structure DisableResult where
  plugin : Plugin
  shutdownCalled : Bool
  notifiedDisabled : Bool
deriving DecidableEq, Repr

/-- `Plugin.disable` (`plugin.py` lines 119-128), with the behaviour of
this call's `shutdown()` given as `sd`: when enabled, call `shutdown()`,
clear `enabled` and publish `plugin_disabled`; an exception from
`shutdown()` is caught, leaving `enabled` set and the event unpublished.
When already disabled, do nothing. -/
def Plugin.disable (p : Plugin) (sd : ShutdownOutcome) : DisableResult :=
  if p.enabled then
    match sd with
    | .success => ⟨⟨false⟩, true, true⟩
    | .raises => ⟨p, true, false⟩
  else ⟨p, false, false⟩

/-- `PluginManager.disable_plugin` (`plugin_manager.py` lines 323-337):
run `plugin.disable()` and then always call
`event_manager.unregister_plugin_events(plugin)`. -/
def disablePlugin (em : EventManager) (p : Plugin) (pluginId : Nat)
    (sd : ShutdownOutcome) : EventManager × DisableResult :=
  (unregisterPluginEvents em pluginId, Plugin.disable p sd)

/-! ### Helper lemmas -/

theorem dictGet_cons {κ α : Type} [DecidableEq κ] (a : κ) (b : α) (d : List (κ × α))
    (k : κ) : dictGet ((a, b) :: d) k = if a = k then some b else dictGet d k := by
  simp only [dictGet, List.find?]
  by_cases h : a = k
  · simp [h]
  · simp [h]

theorem dictGet_dictSet {κ α : Type} [DecidableEq κ] (d : List (κ × α)) (k k' : κ)
    (v : α) :
    dictGet (dictSet d k v) k' = if k' = k then some v else dictGet d k' := by
  induction d with
  | nil =>
    show dictGet [(k, v)] k' = _
    rw [dictGet_cons]
    by_cases h : k' = k
    · rw [if_pos h, if_pos h.symm]
    · rw [if_neg h, if_neg (fun hh => h hh.symm)]
  | cons p d ih =>
    obtain ⟨a, b⟩ := p
    simp only [dictSet]
    by_cases hak : a = k
    · subst hak
      rw [if_pos rfl, dictGet_cons, dictGet_cons]
      by_cases h : a = k'
      · rw [if_pos h, if_pos h.symm]
      · rw [if_neg h, if_neg (fun hh => h hh.symm), if_neg h]
    · rw [if_neg hak, dictGet_cons, dictGet_cons, ih]
      by_cases h : a = k'
      · have : ¬ k' = k := fun hh => hak ((h.trans hh))
        rw [if_pos h, if_pos h, if_neg this]
      · rw [if_neg h, if_neg h]

theorem dictGet_dictSet_self {κ α : Type} [DecidableEq κ] (d : List (κ × α)) (k : κ)
    (v : α) : dictGet (dictSet d k v) k = some v := by
  rw [dictGet_dictSet, if_pos rfl]

/-- `execute_command` never touches the cooldown ledger. -/
theorem executeCommand_commandSources (s : ControllerState) (cmd : ChannelCommand) :
    (executeCommand s cmd).1.commandSources = s.commandSources := by
  unfold executeCommand
  cases cmd.operation <;> simp [setPulseMode]
  · cases cmd.channel <;> rfl

/-- Pairwise ascending priority values, the sortedness invariant of stored
handler lists. -/
def prioLe (a b : EventHandler) : Prop :=
  a.priority.value ≤ b.priority.value

theorem mem_ehInsert (b h : EventHandler) (l : List EventHandler) :
    b ∈ ehInsert h l ↔ b = h ∨ b ∈ l := by
  induction l with
  | nil => simp [ehInsert]
  | cons x xs ih =>
    simp only [ehInsert]
    by_cases hc : h.priority.value ≤ x.priority.value
    · rw [if_pos hc]
      simp [List.mem_cons, or_comm, or_left_comm, or_assoc]
    · rw [if_neg hc]
      simp only [List.mem_cons, ih]
      tauto

theorem ehInsert_pairwise (h : EventHandler) (l : List EventHandler)
    (hl : l.Pairwise prioLe) : (ehInsert h l).Pairwise prioLe := by
  induction l with
  | nil => simp [ehInsert, prioLe]
  | cons x xs ih =>
    rcases List.pairwise_cons.mp hl with ⟨hx, hxs⟩
    simp only [ehInsert]
    by_cases hc : h.priority.value ≤ x.priority.value
    · rw [if_pos hc]
      refine List.pairwise_cons.mpr ⟨?_, hl⟩
      intro b hb
      rcases List.mem_cons.mp hb with hb | hb
      · rw [hb]; exact hc
      · exact le_trans hc (hx b hb)
    · rw [if_neg hc]
      refine List.pairwise_cons.mpr ⟨?_, ih hxs⟩
      intro b hb
      rcases (mem_ehInsert b h xs).mp hb with hb | hb
      · rw [hb]; exact le_of_not_le hc
      · exact hx b hb

theorem pySortHandlers_pairwise (l : List EventHandler) :
    (pySortHandlers l).Pairwise prioLe := by
  induction l with
  | nil => simp [pySortHandlers]
  | cons x xs ih => exact ehInsert_pairwise x (pySortHandlers xs) ih

theorem runHandlers_sublist (hs : List EventHandler) (c : Bool) :
    (runHandlers hs c).1.Sublist hs := by
  induction hs generalizing c with
  | nil => simp [runHandlers]
  | cons h rest ih =>
    simp only [runHandlers]
    by_cases hc : c = true
    · rw [if_pos hc]; exact List.nil_sublist _
    · rw [if_neg hc]
      exact List.Sublist.cons₂ h (ih h.handler.cancels)

/-- A dispatch loop entered with the event already cancelled invokes
nothing. -/
theorem runHandlers_cancelled (hs : List EventHandler) :
    runHandlers hs true = ([], true) := by
  cases hs <;> simp [runHandlers]

/-- A dispatch loop whose handler list is a run of non-cancelling handlers
followed by a cancelling one invokes exactly that run plus the canceller
and leaves the event cancelled: nothing after the cancelling handler is
invoked. -/
theorem runHandlers_cancel (pre : List EventHandler) (h : EventHandler)
    (post : List EventHandler) (hpre : ∀ g ∈ pre, g.handler.cancels = false)
    (hc : h.handler.cancels = true) :
    runHandlers (pre ++ h :: post) false = (pre ++ [h], true) := by
  induction pre with
  | nil => simp [runHandlers, hc, runHandlers_cancelled]
  | cons g gs ih =>
    have hg : g.handler.cancels = false := hpre g (List.mem_cons_self g gs)
    have hrest := ih (fun x hx => hpre x (List.mem_cons_of_mem g hx))
    simp [runHandlers, hg, hrest]

/-- `register_event_handler` stores the freshly sorted list whether or not
an owning plugin is supplied. -/
theorem registerEventHandler_eventHandlers (em : EventManager) (name : String)
    (handler : Callable) (priority : EventPriority) (plugin : Option Nat) :
    (registerEventHandler em name handler priority plugin).eventHandlers =
      dictSet em.eventHandlers name
        (pySortHandlers (((dictGet em.eventHandlers name).getD []) ++
          [⟨handler, priority, plugin⟩])) := by
  unfold registerEventHandler
  cases plugin <;> rfl

/-- Every stored handler list is sorted by ascending priority value. -/
def emSorted (em : EventManager) : Prop :=
  ∀ name hs, dictGet em.eventHandlers name = some hs → hs.Pairwise prioLe

theorem emSorted_empty : emSorted emptyEventManager := by
  intro name hs h
  simp [emptyEventManager, dictGet] at h

theorem emSorted_register (em : EventManager) (hinv : emSorted em) (name : String)
    (handler : Callable) (priority : EventPriority) (plugin : Option Nat) :
    emSorted (registerEventHandler em name handler priority plugin) := by
  intro n hs h
  rw [registerEventHandler_eventHandlers, dictGet_dictSet] at h
  by_cases hn : n = name
  · rw [if_pos hn] at h
    injection h with h
    rw [← h]
    exact pySortHandlers_pairwise _
  · rw [if_neg hn] at h
    exact hinv n hs h

/-- One registration request made against the event bus. -/
structure RegOp where
  eventName : String
  handler : Callable
  priority : EventPriority
  plugin : Option Nat

/-- Apply a sequence of `register_event_handler` calls in order. -/
def applyRegs (em : EventManager) : List RegOp → EventManager
  | [] => em
  | r :: rs => applyRegs (registerEventHandler em r.eventName r.handler r.priority r.plugin) rs

theorem emSorted_applyRegs (regs : List RegOp) :
    ∀ em : EventManager, emSorted em → emSorted (applyRegs em regs) := by
  induction regs with
  | nil => intro em h; exact h
  | cons r rs ih =>
    intro em h
    exact ih _ (emSorted_register em h r.eventName r.handler r.priority r.plugin)

/-- A priority of numeric value ≥ 5 can only be `MONITOR`. -/
theorem eq_monitor_of_five_le (p : EventPriority) (h : 5 ≤ p.value) :
    p = .monitor := by
  cases p <;> first | rfl | exact absurd h (by decide)

/-- `add_command` accepts when the pair has no ledger entry or is past its
cooldown: the ledger entry is set to `now` and the command is enqueued. -/
theorem addCommand_accept (s : ControllerState) (ct : CommandType) (ch : Channel)
    (op : StrengthOperationType) (v : Int) (sid : Option String) (fresh : String)
    (now : Rat)
    (h : dictGet s.commandSources (submitKey ct sid) = none ∨
         ∀ last, dictGet s.commandSources (submitKey ct sid) = some last →
           ¬ (now - last < sourceCooldowns ct)) :
    addCommand s ct ch op v sid fresh now =
      { s with
        commandSources := dictSet s.commandSources (submitKey ct sid) now
        commandQueue := s.commandQueue ++ [⟨ct, ch, op, v, sid.getD fresh, now⟩] } := by
  simp only [addCommand]
  cases hk : dictGet s.commandSources (submitKey ct sid) with
  | none => rfl
  | some last =>
    rcases h with h | h
    · rw [hk] at h; exact absurd h (by simp)
    · have hn := h last hk
      simp only [hn, if_false, Bool.false_eq_true, ite_false]

/-- `add_command` silently drops the command when the pair is still within
its class cooldown: the state is unchanged. -/
theorem addCommand_reject (s : ControllerState) (ct : CommandType) (ch : Channel)
    (op : StrengthOperationType) (v : Int) (sid : Option String) (fresh : String)
    (now last : Rat)
    (he : dictGet s.commandSources (submitKey ct sid) = some last)
    (hlt : now - last < sourceCooldowns ct) :
    addCommand s ct ch op v sid fresh now = s := by
  simp only [addCommand]
  rw [he]
  simp only [hlt, if_true, ite_true]

/-! ### The claims -/

/-- C1: every `take()` of the Priority Command Queue returns a queued
command minimal under the ordering (class priority ascending, then
timestamp ascending) — so commands are processed in non-decreasing class
priority, and within a class in non-decreasing timestamp order — and the
taken command is removed (consumed exactly once). -/
theorem claim_C1 (q : List ChannelCommand) (m : ChannelCommand)
    (rest : List ChannelCommand) (h : takeMin q = some (m, rest)) :
    (∀ x ∈ q, lexLe m x) ∧ (m :: rest).Perm q :=
  ⟨takeMin_min q m rest h, takeMin_perm q m rest h⟩

/-- Witness for C1: the spec's scenario — a GUI `SetTo(A, 30)` queued after
a PANEL `SetTo(A, 5)` is still served first (lower class rank). -/
theorem claim_C1_witness :
    takeMin [⟨.panel, .A, .setTo, 5, "p", mkRat 2 1⟩, ⟨.gui, .A, .setTo, 30, "g", mkRat 3 1⟩]
      = some (⟨.gui, .A, .setTo, 30, "g", mkRat 3 1⟩,
              [⟨.panel, .A, .setTo, 5, "p", mkRat 2 1⟩]) ∧
    ((∀ x ∈ [(⟨.panel, .A, .setTo, 5, "p", mkRat 2 1⟩ : ChannelCommand),
              ⟨.gui, .A, .setTo, 30, "g", mkRat 3 1⟩],
        lexLe ⟨.gui, .A, .setTo, 30, "g", mkRat 3 1⟩ x) ∧
      ([⟨.gui, .A, .setTo, 30, "g", mkRat 3 1⟩,
        ⟨.panel, .A, .setTo, 5, "p", mkRat 2 1⟩] : List ChannelCommand).Perm
        [⟨.panel, .A, .setTo, 5, "p", mkRat 2 1⟩,
         ⟨.gui, .A, .setTo, 30, "g", mkRat 3 1⟩]) :=
  ⟨by decide, claim_C1 _ _ _ (by decide)⟩

/-- C7: with a last-known strength report, `adjust_strength` sends exactly
one `SET_TO` transport call whose value lies in `[0, limit]` for the
channel's limit, for every delta. -/
theorem claim_C7 (s : ControllerState) (ls : StrengthData) (ch : Channel)
    (delta : Int) (hls : s.lastStrength = some ls)
    (hlim : 0 ≤ (match ch with | .A => ls.aLimit | .B => ls.bLimit)) :
    ∃ v : Int,
      adjustStrength s ch delta = [.setStrength ch .setTo v] ∧
      0 ≤ v ∧ v ≤ (match ch with | .A => ls.aLimit | .B => ls.bLimit) := by
  unfold adjustStrength
  rw [hls]
  cases ch with
  | A =>
    refine ⟨max 0 (min ls.aLimit (ls.a + delta)), rfl, le_max_left _ _, ?_⟩
    exact max_le hlim (min_le_left _ _)
  | B =>
    refine ⟨max 0 (min ls.bLimit (ls.b + delta)), rfl, le_max_left _ _, ?_⟩
    exact max_le hlim (min_le_left _ _)

/-- Witness for C7: a large negative delta on channel A with
`a = 30, a_limit = 100` still yields a single in-range `SET_TO` call. -/
theorem claim_C7_witness :
    ({ initialControllerState with
        lastStrength := some ⟨30, 20, 100, 80⟩ } : ControllerState).lastStrength
      = some ⟨30, 20, 100, 80⟩ ∧
    (0 : Int) ≤ 100 ∧
    (∃ v : Int,
      adjustStrength
        { initialControllerState with lastStrength := some ⟨30, 20, 100, 80⟩ }
        .A (-1000) = [.setStrength .A .setTo v] ∧
      0 ≤ v ∧ v ≤ 100) :=
  ⟨rfl, by decide,
    claim_C7 { initialControllerState with lastStrength := some ⟨30, 20, 100, 80⟩ }
      ⟨30, 20, 100, 80⟩ .A (-1000) rfl (by decide)⟩

/-- C8: disabling an already-disabled plugin is a no-op — no exception, no
`shutdown()` call, no second `plugin_disabled` event, state unchanged. -/
theorem claim_C8 (p : Plugin) (sd : ShutdownOutcome) (h : p.enabled = false) :
    Plugin.disable p sd = ⟨p, false, false⟩ := by
  unfold Plugin.disable
  rw [h]
  simp

/-- Witness for C8: a disabled plugin stays untouched by `disable`. -/
theorem claim_C8_witness :
    (⟨false⟩ : Plugin).enabled = false ∧
    Plugin.disable ⟨false⟩ .success = ⟨⟨false⟩, false, false⟩ :=
  ⟨rfl, claim_C8 ⟨false⟩ .success rfl⟩

/-- Counterexample to C9 as stated: for a plugin whose `initialize()`
returns `False`, two sequential enable calls invoke `initialize()` twice
(the failed first call leaves `enabled` unset, so the second call retries),
contradicting "across two sequential enable calls, initialize() runs at
most once". -/
theorem claim_C9_counterexample :
    (Plugin.enable ⟨false⟩ .failure).initializeCalled = true ∧
    (Plugin.enable (Plugin.enable ⟨false⟩ .failure).plugin .failure).initializeCalled
      = true := by
  decide

/-- C9 amended: a second `enable` on an already-enabled plugin returns
`False` as a no-op without invoking `initialize()`; and across two
sequential enable calls whose first `initialize()` succeeds, `initialize()`
runs exactly once (when the first call fails, the second call may invoke
`initialize()` again). -/
theorem claim_C9_amended (p : Plugin) (i2 : InitOutcome) (hp : p.enabled = false) :
    (∀ (q : Plugin) (i : InitOutcome), q.enabled = true →
        Plugin.enable q i = ⟨q, false, false, false⟩) ∧
    (Plugin.enable p .success).plugin.enabled = true ∧
    (Plugin.enable p .success).initializeCalled = true ∧
    (Plugin.enable (Plugin.enable p .success).plugin i2).returned = false ∧
    (Plugin.enable (Plugin.enable p .success).plugin i2).initializeCalled = false := by
  have henabled : ∀ (q : Plugin) (i : InitOutcome), q.enabled = true →
      Plugin.enable q i = ⟨q, false, false, false⟩ := by
    intro q i hq
    unfold Plugin.enable
    rw [hq]
    simp
  have hfirst : Plugin.enable p .success = ⟨⟨true⟩, true, true, true⟩ := by
    unfold Plugin.enable
    rw [hp]
    simp
  refine ⟨henabled, ?_, ?_, ?_, ?_⟩
  · rw [hfirst]
  · rw [hfirst]
  · rw [hfirst, henabled ⟨true⟩ i2 rfl]
  · rw [hfirst, henabled ⟨true⟩ i2 rfl]

/-- Witness for C9 amended: starting from a disabled plugin, a successful
enable followed by a second enable. -/
theorem claim_C9_amended_witness :
    (⟨false⟩ : Plugin).enabled = false ∧
    ((∀ (q : Plugin) (i : InitOutcome), q.enabled = true →
        Plugin.enable q i = ⟨q, false, false, false⟩) ∧
      (Plugin.enable ⟨false⟩ .success).plugin.enabled = true ∧
      (Plugin.enable ⟨false⟩ .success).initializeCalled = true ∧
      (Plugin.enable (Plugin.enable ⟨false⟩ .success).plugin .success).returned = false ∧
      (Plugin.enable (Plugin.enable ⟨false⟩ .success).plugin .success).initializeCalled
        = false) :=
  ⟨rfl, claim_C9_amended ⟨false⟩ .success rfl⟩

/-- Counterexample to C2 as stated: with a HIGHEST-priority handler (id 1)
and a LOWEST-priority handler (id 2) registered for `"x"`, `emit "x"`
invokes the LOWEST handler first and the HIGHEST handler last — not
"Highest-priority handler first". -/
theorem claim_C2_counterexample :
    (emit (registerEventHandler
        (registerEventHandler emptyEventManager "x" ⟨1, false⟩ .highest none)
        "x" ⟨2, false⟩ .lowest none) "x").named.map (fun h => h.priority)
      = [.lowest, .highest] ∧
    ([.lowest, .highest] : List EventPriority) ≠ [.highest, .lowest] := by
  decide

/-- C2 amended: for every state reached by a sequence of registrations and
every event name, `emit` invokes the handlers registered for that exact
name in ascending priority-value order — Lowest-priority handlers first,
Highest-priority handlers after all lower tiers, and Monitor-priority
handlers strictly last regardless of registration order (never before a
non-Monitor handler). -/
theorem claim_C2_amended (regs : List RegOp) (name : String) :
    (emit (applyRegs emptyEventManager regs) name).named.Pairwise prioLe ∧
    (emit (applyRegs emptyEventManager regs) name).named.Pairwise
      (fun a b => a.priority = .monitor → b.priority = .monitor) := by
  have hsorted : emSorted (applyRegs emptyEventManager regs) :=
    emSorted_applyRegs regs emptyEventManager emSorted_empty
  have hnamed : (emit (applyRegs emptyEventManager regs) name).named.Pairwise prioLe := by
    unfold emit
    cases hk : dictGet (applyRegs emptyEventManager regs).eventHandlers name with
    | none => simp [hk, runHandlers]
    | some hs =>
      simp only [hk, Option.getD_some]
      exact (hsorted name hs hk).sublist (runHandlers_sublist hs false)
  refine ⟨hnamed, hnamed.imp ?_⟩
  intro a b hab ha
  refine eq_monitor_of_five_le b.priority ?_
  have : a.priority.value = 5 := by rw [ha]; rfl
  unfold prioLe at hab
  omega

/-- Counterexample to C3 as stated: three handlers for `"x"` at priorities
HIGHEST (id 1, cancelling), NORMAL (id 2) and LOWEST (id 3); on `emit "x"`
the observed call order is `[Lowest, Normal, Highest]`, not `[Highest]` —
in particular the Normal- and Lowest-priority handlers ARE invoked in that
emission. -/
theorem claim_C3_counterexample :
    (emit (registerEventHandler (registerEventHandler (registerEventHandler
        emptyEventManager "x" ⟨1, true⟩ .highest none)
        "x" ⟨2, false⟩ .normal none)
        "x" ⟨3, false⟩ .lowest none) "x").named.map (fun h => h.handler.id)
      = [3, 2, 1] ∧
    ([3, 2, 1] : List Nat) ≠ [1] := by
  decide

/-- C3 amended: cancellation stops only the handlers that come after the
cancelling handler in the ascending-priority dispatch order.  First
conjunct, universally over every state reached by registrations and every
emission: when the stored handler list for the emitted name (which `emit`
walks in order — ascending priority order, by C2) consists of
non-cancelling handlers followed by a cancelling one, exactly that run
plus the canceller is invoked, no later handler and no wildcard handler is
invoked, and the event ends cancelled.  Second conjunct, the claim's
scenario (HIGHEST id 1 cancelling, NORMAL id 2, LOWEST id 3, plus a
MONITOR handler id 4 and a wildcard handler id 5): the observed call order
is `[Lowest, Normal, Highest]` — the cancellation by the Highest-priority
handler suppresses only the MONITOR handler and the wildcard phase. -/
theorem claim_C3_amended :
    (∀ (regs : List RegOp) (name : String) (pre post : List EventHandler)
        (h : EventHandler),
      (dictGet (applyRegs emptyEventManager regs).eventHandlers name).getD []
          = pre ++ h :: post →
      (∀ g ∈ pre, g.handler.cancels = false) →
      h.handler.cancels = true →
      emit (applyRegs emptyEventManager regs) name = ⟨pre ++ [h], [], true⟩) ∧
    (emit (registerEventHandler (registerEventHandler (registerEventHandler
        (registerEventHandler (registerEventHandler
        emptyEventManager "x" ⟨1, true⟩ .highest none)
        "x" ⟨2, false⟩ .normal none)
        "x" ⟨3, false⟩ .lowest none)
        "x" ⟨4, false⟩ .monitor none)
        "*" ⟨5, false⟩ .normal none) "x")
      = ⟨[⟨⟨3, false⟩, .lowest, none⟩, ⟨⟨2, false⟩, .normal, none⟩,
          ⟨⟨1, true⟩, .highest, none⟩], [], true⟩ := by
  constructor
  · intro regs name pre post h hdec hpre hc
    unfold emit
    rw [hdec, runHandlers_cancel pre h post hpre hc]
    dsimp only
    rw [runHandlers_cancelled]
  · decide

/-- Witness for C3 amended: in the scenario state, the stored list for
`"x"` decomposes as the non-cancelling Lowest and Normal handlers followed
by the cancelling Highest handler, and the universal clause yields exactly
the `[Lowest, Normal, Highest]` emission with the wildcard phase
suppressed. -/
theorem claim_C3_amended_witness :
    (dictGet (applyRegs emptyEventManager
        [⟨"x", ⟨1, true⟩, .highest, none⟩, ⟨"x", ⟨2, false⟩, .normal, none⟩,
         ⟨"x", ⟨3, false⟩, .lowest, none⟩, ⟨"x", ⟨4, false⟩, .monitor, none⟩,
         ⟨"*", ⟨5, false⟩, .normal, none⟩]).eventHandlers "x").getD []
      = [⟨⟨3, false⟩, .lowest, none⟩, ⟨⟨2, false⟩, .normal, none⟩] ++
          ⟨⟨1, true⟩, .highest, none⟩ ::
            [⟨⟨4, false⟩, .monitor, none⟩] ∧
    (∀ g ∈ [(⟨⟨3, false⟩, .lowest, none⟩ : EventHandler),
            ⟨⟨2, false⟩, .normal, none⟩], g.handler.cancels = false) ∧
    (⟨⟨1, true⟩, .highest, none⟩ : EventHandler).handler.cancels = true ∧
    emit (applyRegs emptyEventManager
        [⟨"x", ⟨1, true⟩, .highest, none⟩, ⟨"x", ⟨2, false⟩, .normal, none⟩,
         ⟨"x", ⟨3, false⟩, .lowest, none⟩, ⟨"x", ⟨4, false⟩, .monitor, none⟩,
         ⟨"*", ⟨5, false⟩, .normal, none⟩]) "x"
      = ⟨[⟨⟨3, false⟩, .lowest, none⟩, ⟨⟨2, false⟩, .normal, none⟩] ++
          [⟨⟨1, true⟩, .highest, none⟩], [], true⟩ :=
  ⟨by decide, by decide, by decide,
    claim_C3_amended.1
      [⟨"x", ⟨1, true⟩, .highest, none⟩, ⟨"x", ⟨2, false⟩, .normal, none⟩,
       ⟨"x", ⟨3, false⟩, .lowest, none⟩, ⟨"x", ⟨4, false⟩, .monitor, none⟩,
       ⟨"*", ⟨5, false⟩, .normal, none⟩] "x"
      [⟨⟨3, false⟩, .lowest, none⟩, ⟨⟨2, false⟩, .normal, none⟩]
      [⟨⟨4, false⟩, .monitor, none⟩] ⟨⟨1, true⟩, .highest, none⟩
      (by decide) (by decide) (by decide)⟩

/-- C6: the claim is right and the code is wrong.  `disable_plugin` does
invoke `shutdown()` and publish `plugin_disabled`, but
`unregister_plugin_events` recovers the event name from the bookkeeping
key `f"{event_name}_{id(handler)}"` as `event_key.split('_')[0]`, which
for an underscore-containing event name such as `plugin_enabled` yields
`"plugin"`; the removal then targets the (nonexistent) `"plugin"` list and
the handler registered for `plugin_enabled` on behalf of the plugin
remains registered after `disable`. -/
theorem claim_C6_bug :
    (disablePlugin
        (registerEventHandler emptyEventManager "plugin_enabled" ⟨42, false⟩
          .normal (some 7))
        ⟨true⟩ 7 .success).2 = ⟨⟨false⟩, true, true⟩ ∧
    dictGet (disablePlugin
        (registerEventHandler emptyEventManager "plugin_enabled" ⟨42, false⟩
          .normal (some 7))
        ⟨true⟩ 7 .success).1.eventHandlers "plugin_enabled"
      = some [⟨⟨42, false⟩, .normal, some 7⟩] ∧
    (pySplit "plugin_enabled_42" '_').headD "" = "plugin" := by
  decide

/-- C4: a submission through `add_command` is accepted iff the
(class, source_id) pair has no ledger entry or is past the class cooldown;
on acceptance the pair's ledger entry becomes the submission time and the
command (timestamped with the submission time) is enqueued; on rejection
the state is unchanged (silent drop).  Consequently two submissions from
the same pair within `cooldown[class]` seconds (starting from a pair with
no ledger entry) enqueue exactly one command. -/
theorem claim_C4 (s : ControllerState) (ct : CommandType) (ch : Channel)
    (op : StrengthOperationType) (v : Int) (sid : Option String) (fresh : String)
    (now : Rat) :
    ((dictGet s.commandSources (submitKey ct sid) = none ∨
        (∃ last, dictGet s.commandSources (submitKey ct sid) = some last ∧
          sourceCooldowns ct ≤ now - last)) →
      ((addCommand s ct ch op v sid fresh now).commandQueue
          = s.commandQueue ++ [⟨ct, ch, op, v, sid.getD fresh, now⟩] ∧
       dictGet (addCommand s ct ch op v sid fresh now).commandSources
          (submitKey ct sid) = some now)) ∧
    ((∃ last, dictGet s.commandSources (submitKey ct sid) = some last ∧
        now - last < sourceCooldowns ct) →
      addCommand s ct ch op v sid fresh now = s) ∧
    (∀ (t1 t2 : Rat) (ch2 : Channel) (op2 : StrengthOperationType) (v2 : Int),
      dictGet s.commandSources (submitKey ct sid) = none →
      t2 - t1 < sourceCooldowns ct →
      (addCommand (addCommand s ct ch op v sid fresh t1) ct ch2 op2 v2 sid fresh
          t2).commandQueue.length = s.commandQueue.length + 1) := by
  refine ⟨?_, ?_, ?_⟩
  · intro hacc
    have h : dictGet s.commandSources (submitKey ct sid) = none ∨
        ∀ last, dictGet s.commandSources (submitKey ct sid) = some last →
          ¬ (now - last < sourceCooldowns ct) := by
      rcases hacc with h | ⟨last, he, hge⟩
      · exact Or.inl h
      · refine Or.inr fun last' he' => ?_
        rw [he] at he'
        injection he' with he'
        rw [← he']
        exact not_lt.mpr hge
    rw [addCommand_accept s ct ch op v sid fresh now h]
    exact ⟨rfl, dictGet_dictSet_self _ _ _⟩
  · rintro ⟨last, he, hlt⟩
    exact addCommand_reject s ct ch op v sid fresh now last he hlt
  · intro t1 t2 ch2 op2 v2 hnone hlt
    rw [addCommand_accept s ct ch op v sid fresh t1 (Or.inl hnone)]
    rw [addCommand_reject _ ct ch2 op2 v2 sid fresh t2 t1
        (dictGet_dictSet_self _ _ _) hlt]
    simp

unseal Rat.sub in
/-- Witness for C4: a fresh PANEL submission from source `"s"` at `t = 100`
followed by another one `0.05 s` later (within the `0.1 s` PANEL cooldown)
leaves exactly one queued command. -/
theorem claim_C4_witness :
    dictGet initialControllerState.commandSources (submitKey .panel (some "s"))
      = none ∧
    mkRat 2001 20 - mkRat 100 1 < sourceCooldowns .panel ∧
    (addCommand (addCommand initialControllerState .panel .A .setTo 10 (some "s")
        "u" (mkRat 100 1)) .panel .A .setTo 11 (some "s") "u"
        (mkRat 2001 20)).commandQueue.length
      = initialControllerState.commandQueue.length + 1 :=
  ⟨by decide, by decide,
    (claim_C4 initialControllerState .panel .A .setTo 10 (some "s") "u"
        (mkRat 100 1)).2.2 (mkRat 100 1) (mkRat 2001 20) .A .setTo 11
      (by decide) (by decide)⟩

unseal Rat.sub in
/-- Counterexample to C5 as stated: submit a PANEL command from source
`"s"` at `t = 100` (ledger entry `"PANEL_COMMAND_s" ↦ 100`), take it from
the queue, and dispatch it at `t = 100.05` — within the `0.1 s` PANEL
cooldown of its (class, source_id) pair as recorded at submission.  The
dispatcher does not skip it: it looks up the ledger under the bare key
`"s"` (absent, defaulting to `0`) and executes the command, issuing the
transport call. -/
theorem claim_C5_counterexample :
    takeMin (addCommand initialControllerState .panel .A .setTo 10 (some "s") "u"
        (mkRat 100 1)).commandQueue
      = some (⟨.panel, .A, .setTo, 10, "s", mkRat 100 1⟩, []) ∧
    mkRat 2001 20 -
        ((dictGet (addCommand initialControllerState .panel .A .setTo 10 (some "s")
            "u" (mkRat 100 1)).commandSources (submitKey .panel (some "s"))).getD 0)
      < sourceCooldowns .panel ∧
    (processOneCommand (addCommand initialControllerState .panel .A .setTo 10
        (some "s") "u" (mkRat 100 1)) ⟨.panel, .A, .setTo, 10, "s", mkRat 100 1⟩
        (mkRat 2001 20)).2
      = [.setStrength .A .setTo 10] := by
  decide

/-- C5 amended: the dispatch-time re-check is keyed by the command's
`source_id` alone (not the (class, source_id) pair), defaulting to `0`
when absent, against entries that only dispatch itself writes — the
composite `"CLASS_source"` entries written at submission are never
consulted.  A command whose `source_id` entry is within its class's
cooldown window is skipped: no execution, no transport call and no state
change; otherwise the dispatcher refreshes the `source_id` entry to the
dispatch time. -/
theorem claim_C5_amended (s : ControllerState) (cmd : ChannelCommand) (now : Rat) :
    (now - (dictGet s.commandSources cmd.sourceId).getD 0
        < sourceCooldowns cmd.commandType →
      processOneCommand s cmd now = (s, [])) ∧
    (¬ (now - (dictGet s.commandSources cmd.sourceId).getD 0
        < sourceCooldowns cmd.commandType) →
      dictGet (processOneCommand s cmd now).1.commandSources cmd.sourceId
        = some now) := by
  constructor
  · intro hlt
    unfold processOneCommand
    rw [if_pos hlt]
  · intro hge
    have key : (processOneCommand s cmd now).1.commandSources
        = dictSet s.commandSources cmd.sourceId now := by
      unfold processOneCommand
      rw [if_neg hge]
      dsimp only
      repeat' split
      all_goals simp [executeCommand_commandSources]
    rw [key]
    exact dictGet_dictSet_self _ _ _

unseal Rat.sub in
/-- Witness for C5 amended: a PANEL command from source `"s"` dispatched at
`t = 100.05` while the dispatch ledger holds `"s" ↦ 100` is skipped with
no state change and no transport call; dispatched at `t = 100.2` it
refreshes the ledger entry. -/
theorem claim_C5_amended_witness :
    (mkRat 2001 20 -
        ((dictGet [("s", mkRat 100 1)] "s").getD 0) < sourceCooldowns .panel) ∧
    processOneCommand
        { initialControllerState with commandSources := [("s", mkRat 100 1)] }
        ⟨.panel, .A, .setTo, 10, "s", mkRat 100 1⟩ (mkRat 2001 20)
      = ({ initialControllerState with commandSources := [("s", mkRat 100 1)] }, []) ∧
    ¬ (mkRat 501 5 -
        ((dictGet [("s", mkRat 100 1)] "s").getD 0) < sourceCooldowns .panel) ∧
    dictGet (processOneCommand
        { initialControllerState with commandSources := [("s", mkRat 100 1)] }
        ⟨.panel, .A, .setTo, 10, "s", mkRat 100 1⟩ (mkRat 501 5)).1.commandSources "s"
      = some (mkRat 501 5) :=
  ⟨by decide,
    (claim_C5_amended
        { initialControllerState with commandSources := [("s", mkRat 100 1)] }
        ⟨.panel, .A, .setTo, 10, "s", mkRat 100 1⟩ (mkRat 2001 20)).1 (by decide),
    by decide,
    (claim_C5_amended
        { initialControllerState with commandSources := [("s", mkRat 100 1)] }
        ⟨.panel, .A, .setTo, 10, "s", mkRat 100 1⟩ (mkRat 501 5)).2 (by decide)⟩

/-- C10 (implicit): in the dispatcher, the `source_id`-keyed ledger entry
is refreshed before the class feature-toggle and per-channel
interaction-mode checks, so a command dropped by those checks still has
the refresh applied — and a later command with the same `source_id`
arriving at dispatch within its class cooldown of that refresh is skipped
there. -/
theorem claim_C10 (s : ControllerState) (cmd : ChannelCommand) (now : Rat)
    (hpass : ¬ (now - (dictGet s.commandSources cmd.sourceId).getD 0
        < sourceCooldowns cmd.commandType))
    (hdrop : (cmd.commandType = .gui ∧ s.enableGuiCommands = false) ∨
        (cmd.commandType = .panel ∧ s.enablePanelCommands = false) ∨
        (cmd.commandType = .interaction ∧ s.enableInteractionCommands = false) ∨
        (cmd.commandType = .interaction ∧ s.enableInteractionCommands = true ∧
          ¬ ((cmd.channel = .A ∧ s.enableInteractionModeA = true) ∨
             (cmd.channel = .B ∧ s.enableInteractionModeB = true)))) :
    processOneCommand s cmd now
      = ({ s with commandSources := dictSet s.commandSources cmd.sourceId now }, []) ∧
    dictGet (processOneCommand s cmd now).1.commandSources cmd.sourceId = some now ∧
    (∀ (cmd2 : ChannelCommand) (now2 : Rat), cmd2.sourceId = cmd.sourceId →
      now2 - now < sourceCooldowns cmd2.commandType →
      processOneCommand (processOneCommand s cmd now).1 cmd2 now2
        = ((processOneCommand s cmd now).1, [])) := by
  have hrun : processOneCommand s cmd now
      = ({ s with commandSources := dictSet s.commandSources cmd.sourceId now }, []) := by
    unfold processOneCommand
    rw [if_neg hpass]
    rcases hdrop with ⟨hc, ht⟩ | ⟨hc, ht⟩ | ⟨hc, ht⟩ | ⟨hc, ht, hm⟩
    · simp [hc, ht]
    · simp [hc, ht]
    · simp [hc, ht]
    · simp [hc, ht, hm]
  refine ⟨hrun, ?_, ?_⟩
  · rw [hrun]
    exact dictGet_dictSet_self _ _ _
  · intro cmd2 now2 hsid hlt
    rw [hrun]
    unfold processOneCommand
    rw [if_pos]
    rw [hsid]
    simp only [dictGet_dictSet_self, Option.getD_some]
    exact hlt

unseal Rat.sub in
/-- Witness for C10: an INTERACTION command for channel A arriving while
channel A's interaction mode is off (the default) is dropped, yet a second
INTERACTION command with the same source `"s"` arriving `0.025 s` later
(within the `0.05 s` INTERACTION cooldown) is skipped by the dispatch-time
cooldown check. -/
theorem claim_C10_witness :
    ¬ (mkRat 100 1 -
        ((dictGet initialControllerState.commandSources "s").getD 0)
        < sourceCooldowns .interaction) ∧
    ((.interaction : CommandType) = .interaction ∧
      initialControllerState.enableInteractionCommands = true ∧
      ¬ (((.A : Channel) = .A ∧ initialControllerState.enableInteractionModeA = true) ∨
         ((.A : Channel) = .B ∧ initialControllerState.enableInteractionModeB = true))) ∧
    (processOneCommand initialControllerState
        ⟨.interaction, .A, .setTo, 10, "s", mkRat 100 1⟩ (mkRat 100 1)
      = ({ initialControllerState with
            commandSources := dictSet initialControllerState.commandSources "s"
              (mkRat 100 1) }, []) ∧
    dictGet (processOneCommand initialControllerState
        ⟨.interaction, .A, .setTo, 10, "s", mkRat 100 1⟩
        (mkRat 100 1)).1.commandSources "s" = some (mkRat 100 1) ∧
    (∀ (cmd2 : ChannelCommand) (now2 : Rat), cmd2.sourceId = "s" →
      now2 - mkRat 100 1 < sourceCooldowns cmd2.commandType →
      processOneCommand (processOneCommand initialControllerState
          ⟨.interaction, .A, .setTo, 10, "s", mkRat 100 1⟩ (mkRat 100 1)).1 cmd2 now2
        = ((processOneCommand initialControllerState
            ⟨.interaction, .A, .setTo, 10, "s", mkRat 100 1⟩ (mkRat 100 1)).1, []))) :=
  ⟨by decide, by decide,
    claim_C10 initialControllerState
      ⟨.interaction, .A, .setTo, 10, "s", mkRat 100 1⟩ (mkRat 100 1)
      (by decide)
      (Or.inr (Or.inr (Or.inr ⟨rfl, rfl, by decide⟩)))⟩

end DGLab
